import Mathlib

/-!
Shallow embedding of the `datafusion_quality` rule engine
(src/modules/datafusion_quality): the data model (datasets as schema-typed
row tables), the rule catalogue (schema / column / table rules), and the
`RuleSet` orchestrator (`apply`, `partition`).

The underlying query engine (DataFusion) is an external collaborator: row
expressions are evaluated with SQL three-valued (Kleene) logic, nulls are
`Option.none`, and whole-table aggregates are delegated to an abstract
`Engine` parameter exactly where the Rust code hands a built aggregate
expression to DataFusion.  Numeric values are modelled as rationals
(no claim depends on binary floating-point rounding).
-/

namespace DFQ

/-- A scalar cell value (Arrow scalar).  `num` models every numeric type. -/
inductive Val
  | num (q : ℚ)
  | str (s : String)
  | bool (b : Bool)
deriving DecidableEq, Repr

/-- Column data types, as far as the schema rules inspect them. -/
inductive DType
  | num
  | str
  | bool
deriving DecidableEq, Repr

/-- A schema field: name, data type, nullability (arrow `Field`). -/
structure Field where
  name : String
  dtype : DType
  nullable : Bool
deriving DecidableEq, Repr

instance : Inhabited Field := ⟨⟨"", DType.bool, true⟩⟩

/-- A DataFrame: an ordered schema plus rows aligned with it.
A cell of `none` is SQL NULL. -/
structure DataFrame where
  fields : List Field
  rows : List (List (Option Val))
deriving DecidableEq, Repr

deriving instance DecidableEq for Except

/-- Index of the first field with the given name (DataFusion column
resolution against a schema). -/
def idxOfName : List Field → String → Option Nat
  | [], _ => none
  | f :: fs, n => if f.name == n then some 0 else (idxOfName fs n).map (· + 1)

/-- Rows are well-formed when each row has one cell per schema field. -/
def DataFrame.aligned (df : DataFrame) : Bool :=
  df.rows.all (fun r => r.length == df.fields.length)

/-- Value of column `n` in a row (SQL NULL when the cell is null; an
unresolvable name would be a DataFusion plan error, which the claims never
exercise, and is read as null here). -/
def lookupVal (fields : List Field) (row : List (Option Val)) (n : String) : Option Val :=
  match idxOfName fields n with
  | some i => row.getD i none
  | none => none

/-- The values of one column, top to bottom. -/
def DataFrame.columnValues (df : DataFrame) (n : String) : Option (List (Option Val)) :=
  (idxOfName df.fields n).map (fun i => df.rows.map (fun r => r.getD i none))

/-- `DataFrame::with_column`: replaces the column when the name already
exists, otherwise appends it on the right. -/
def DataFrame.withColumn (df : DataFrame) (f : Field) (vals : List (Option Val)) : DataFrame :=
  match idxOfName df.fields f.name with
  | some i => ⟨df.fields.set i f, (df.rows.zip vals).map (fun rv => rv.1.set i rv.2)⟩
  | none => ⟨df.fields ++ [f], (df.rows.zip vals).map (fun rv => rv.1 ++ [rv.2])⟩

/-- `DataFrame::filter`: keeps the rows on which the predicate is true
(SQL filter drops both false and null). -/
def DataFrame.filterRows (df : DataFrame) (p : List (Option Val) → Bool) : DataFrame :=
  ⟨df.fields, df.rows.filter p⟩

/-- The closed error taxonomy of `error.rs` (`ValidationError`). -/
inductive ValidationError
  | dataFusion (message : String)
  | validation (message : String)
  | configuration (message : String)
  | columnNotFound (columnName : String)
  | typeMismatch (message : String)
  | columnNullabilityMismatch (columnName : String) (expected : Bool)
  | schema (message : String)
  | column (message : String)
deriving DecidableEq, Repr

/-- True exactly on the `Schema` variant of the error taxonomy. -/
def ValidationError.isSchemaError : ValidationError → Bool
  | .schema _ => true
  | _ => false

/-- True when a result aborted with the `Schema` error variant. -/
def isSchemaErrorResult (r : Except ValidationError DataFrame) : Bool :=
  match r with
  | .error e => e.isSchemaError
  | .ok _ => false

/-- `select_columns`: project a dataframe down to the named columns, in the
given order; a missing name is a plan error. -/
def DataFrame.selectColumns (df : DataFrame) (names : List String) :
    Except ValidationError DataFrame :=
  if (names.map (fun n => idxOfName df.fields n)).all Option.isSome then
    let is := names.map (fun n => (idxOfName df.fields n).getD 0)
    .ok ⟨is.map (fun i => df.fields.getD i default),
         df.rows.map (fun r => is.map (fun i => r.getD i none))⟩
  else .error (.dataFusion "select_columns: column not found")

/-! ## SQL three-valued (Kleene) logic and value operations -/

/-- SQL NOT: null stays null. -/
def sqlNot : Option Bool → Option Bool
  | some b => some (!b)
  | none => none

/-- SQL AND (Kleene): false dominates null. -/
def sqlAnd : Option Bool → Option Bool → Option Bool
  | some false, _ => some false
  | _, some false => some false
  | some true, some true => some true
  | _, _ => none

/-- Value-level strict less-than; comparing different runtime types would
be a plan-time coercion concern of the engine, read here as null. -/
def valLt (a b : Val) : Option Bool :=
  match a, b with
  | .num x, .num y => some (decide (x < y))
  | .str x, .str y => some (decide (x < y))
  | .bool x, .bool y => some (decide (x < y))
  | _, _ => none

/-- Value-level less-or-equal. -/
def valLe (a b : Val) : Option Bool :=
  match a, b with
  | .num x, .num y => some (decide (x ≤ y))
  | .str x, .str y => some (decide (x ≤ y))
  | .bool x, .bool y => some (decide (x ≤ y))
  | _, _ => none

/-- Value-level greater-than. -/
def valGt (a b : Val) : Option Bool := valLt b a

/-- Value-level greater-or-equal. -/
def valGe (a b : Val) : Option Bool := valLe b a

/-- Value-level SQL equality. -/
def valEq (a b : Val) : Option Bool :=
  match a, b with
  | .num x, .num y => some (decide (x = y))
  | .str x, .str y => some (decide (x = y))
  | .bool x, .bool y => some (decide (x = y))
  | _, _ => none

/-- Lift a value comparison to nullable operands: null propagates. -/
def sqlCmp (f : Val → Val → Option Bool) : Option Val → Option Val → Option Bool
  | some a, some b => f a b
  | _, _ => none

/-- SQL `x BETWEEN lo AND hi` (inclusive both ends), null-propagating;
DataFusion rewrites it as `lo <= x AND x <= hi`. -/
def sqlBetween (x lo hi : Option Val) : Option Bool :=
  sqlAnd (sqlCmp valLe lo x) (sqlCmp valLe x hi)

/-- SQL LIKE wildcard match over character lists:
`%` matches any run, `_` any single character. -/
def likeMatch : List Char → List Char → Bool
  | [], [] => true
  | [], _ :: _ => false
  | '%' :: ps, [] => likeMatch ps []
  | '%' :: ps, c :: cs => likeMatch ps (c :: cs) || likeMatch ('%' :: ps) cs
  | '_' :: ps, _ :: cs => likeMatch ps cs
  | '_' :: _, [] => false
  | p :: ps, c :: cs => p == c && likeMatch ps cs
  | _ :: _, [] => false
termination_by ps cs => (ps.length, cs.length)

/-- SQL LIKE / ILIKE / NOT LIKE / NOT ILIKE on a nullable string value. -/
def sqlLike (caseSensitive negated : Bool) (v : Option Val) (pattern : String) : Option Bool :=
  match v with
  | some (.str s) =>
    let r :=
      if caseSensitive then likeMatch pattern.data s.data
      else likeMatch (pattern.data.map Char.toLower) (s.data.map Char.toLower)
    some (if negated then !r else r)
  | _ => none

/-- `char_length` of a nullable value (defined on strings). -/
def charLength : Option Val → Option Val
  | some (.str s) => some (.num s.length)
  | _ => none

/-! ## Row-level expressions

The `Expr` values a caller hands to a comparison or custom rule are
DataFusion expressions; the fragment the rules of this repository consume
is a column reference or a literal. -/

/-- A caller-supplied row expression (`datafusion::prelude::Expr` fragment). -/
inductive RExpr
  | col (name : String)
  | lit (v : Val)
  | litNull
deriving DecidableEq, Repr

/-- Evaluate a row expression against one row. -/
def evalRExpr (fields : List Field) (e : RExpr) (row : List (Option Val)) : Option Val :=
  match e with
  | .col n => lookupVal fields row n
  | .lit v => some v
  | .litNull => none

/-- Schema type of a row expression (used only to type derived columns). -/
def RExpr.dtypeIn (fields : List Field) : RExpr → DType
  | .col n =>
    match idxOfName fields n with
    | some i => (fields.getD i default).dtype
    | none => .bool
  | .lit (.num _) => .num
  | .lit (.str _) => .str
  | .lit (.bool _) => .bool
  | .litNull => .bool

/-- Cast a nullable value to boolean, as the verdict construction does via
`cast_to(Boolean)`; numerics cast to their non-zero test, strings parse. -/
def sqlCastBool : Option Val → Option Bool
  | some (.bool b) => some b
  | some (.num q) => some (decide (q ≠ 0))
  | some (.str s) => if s == "true" then some true else if s == "false" then some false else none
  | none => none

/-! ## Column rules (rules/column.rs) -/

/-- The comparison kinds of `ComparisonRule`. -/
inductive ComparisonType
  | lessThan
  | greaterThan
  | equals
deriving DecidableEq, Repr

/-- The concrete `ColumnRule` implementations of `rules/column.rs`.  Each
is an immutable configuration value; `u32` length bounds become `Nat`,
`f64` range bounds become `ℚ`. -/
inductive ColumnRule
  | nullRule (negated : Option Bool)
  | rangeRule (min max : ℚ) (negated : Option Bool)
  | patternRule (pattern : String) (negated caseSensitive : Option Bool)
  | comparisonRule (value : RExpr) (negated equals : Bool) (ctype : ComparisonType)
  | lengthRule (min max : Option Nat)
  | customRule (ruleName : String) (expression : RExpr)
deriving DecidableEq, Repr

/-- `ColumnRule::name` of each variant. -/
def ColumnRule.name : ColumnRule → String
  | .nullRule neg => if neg.getD false then "not_null" else "null"
  | .rangeRule _ _ neg => if neg.getD false then "not_in_range" else "in_range"
  | .patternRule _ neg cs =>
    match neg.getD false, cs.getD false with
    | true, true => "not_like"
    | false, true => "like"
    | true, false => "not_ilike"
    | false, false => "ilike"
  | .comparisonRule _ neg eq ct =>
    match ct, neg, eq with
    | .lessThan, false, false => "less_than"
    | .lessThan, false, true => "less_than_equals"
    | .lessThan, true, false => "not_less_than"
    | .lessThan, true, true => "not_less_than_equals"
    | .greaterThan, false, false => "greater_than"
    | .greaterThan, false, true => "greater_than_equals"
    | .greaterThan, true, false => "not_greater_than"
    | .greaterThan, true, true => "not_greater_than_equals"
    | .equals, false, _ => "equals"
    | .equals, true, _ => "not_equals"
  | .lengthRule mn mx =>
    match mn, mx with
    | some _, some _ => "length_range"
    | some _, none => "min_length"
    | none, some _ => "max_length"
    | none, none => "length"
  | .customRule _ _ => "custom"

/-- `ColumnRule::new_column_name`: `LengthRule` always uses the fixed
suffix `_length`; `CustomRule` uses its rule name; every other variant
appends `name()`. -/
def ColumnRule.newColumnName : ColumnRule → String → String
  | .lengthRule _ _, c => c ++ "_length"
  | .customRule rn _, c => c ++ "_" ++ rn
  | r, c => c ++ "_" ++ r.name

/-- The value a column rule computes for one row (the row-level semantics
of the expression each `apply` hands to `with_column`). -/
def ColumnRule.rowValue (r : ColumnRule) (fields : List Field) (colName : String)
    (row : List (Option Val)) : Option Val :=
  match r with
  | .nullRule neg =>
    let v := lookupVal fields row colName
    some (.bool (if neg.getD false then v.isSome else v.isNone))
  | .rangeRule mn mx neg =>
    let v := lookupVal fields row colName
    let b := sqlBetween v (some (.num mn)) (some (.num mx))
    (if neg.getD false then sqlNot b else b).map .bool
  | .patternRule pat neg cs =>
    (sqlLike (cs.getD false) (neg.getD false) (lookupVal fields row colName) pat).map .bool
  | .comparisonRule value neg eq ct =>
    let v := lookupVal fields row colName
    let w := evalRExpr fields value row
    let base : Option Bool :=
      match ct, eq with
      | .lessThan, true => sqlCmp valLe v w
      | .lessThan, false => sqlCmp valLt v w
      | .greaterThan, true => sqlCmp valGe v w
      | .greaterThan, false => sqlCmp valGt v w
      | .equals, _ => sqlCmp valEq v w
    (if neg then sqlNot base else base).map .bool
  | .lengthRule mn mx =>
    let len := charLength (lookupVal fields row colName)
    let b : Option Bool :=
      match mn, mx with
      | some m, some mM => sqlBetween len (some (.num m)) (some (.num mM))
      | some m, none => sqlCmp valGe len (some (.num m))
      | none, some mM => sqlCmp valLt len (some (.num mM))
      | none, none => none
    b.map .bool
  | .customRule _ e => evalRExpr fields e row

/-- Schema type of the derived column a rule appends. -/
def ColumnRule.derivedDType (r : ColumnRule) (fields : List Field) : DType :=
  match r with
  | .customRule _ e => e.dtypeIn fields
  | _ => .bool

/-- `ColumnRule::apply`: append the derived column.  A no-bound length
rule is a configuration error before any plan is built; a rule whose
target column does not resolve is a (DataFusion) plan error. -/
def ColumnRule.apply (r : ColumnRule) (df : DataFrame) (colName : String) :
    Except ValidationError DataFrame :=
  match r with
  | .lengthRule none none =>
    .error (.configuration "Length rule must have either a minimum or maximum length")
  | .customRule rn e =>
    .ok (df.withColumn ⟨(ColumnRule.customRule rn e).newColumnName colName,
          e.dtypeIn df.fields, true⟩
          (df.rows.map ((ColumnRule.customRule rn e).rowValue df.fields colName)))
  | _ =>
    if (idxOfName df.fields colName).isSome then
      .ok (df.withColumn ⟨r.newColumnName colName, .bool, true⟩
            (df.rows.map (r.rowValue df.fields colName)))
    else .error (.dataFusion ("No field named " ++ colName))

/-! ## Table rules (rules/table.rs) -/

/-- A sort expression (`datafusion::logical_expr::SortExpr`). -/
structure SortExpr where
  expr : RExpr
  asc : Bool
  nullsFirst : Bool
deriving DecidableEq, Repr

/-- `CalculationType`: the closed set of statistical aggregates. -/
inductive CalculationType
  | count
  | countDistinct
  | avg
  | stdDev
  | max
  | min
  | sum
  | median
  | covarPop (x y : Option RExpr)
  | covarSamp (x y : Option RExpr)
  | firstValue (sortExprs : Option (List SortExpr))
  | lastValue
  | nthValue (n : Int) (sortExprs : Option (List SortExpr))
  | regrAvgX (x y : Option RExpr)
  | regrAvgY (x y : Option RExpr)
  | regrCount (x y : Option RExpr)
  | regrIntercept (x y : Option RExpr)
  | regrR2 (x y : Option RExpr)
  | regrSlope (x y : Option RExpr)
  | regrSxx (x y : Option RExpr)
  | regrSxy (x y : Option RExpr)
  | regrSyy (x y : Option RExpr)
  | stddevPop
  | varPop
  | varSamp
deriving DecidableEq, Repr

/-- The `strum::Display` variant name of a calculation, already passed
through `to_ascii_lowercase` as `new_column_name` does. -/
def CalculationType.lowerName : CalculationType → String
  | .count => "count"
  | .countDistinct => "countdistinct"
  | .avg => "avg"
  | .stdDev => "stddev"
  | .max => "max"
  | .min => "min"
  | .sum => "sum"
  | .median => "median"
  | .covarPop _ _ => "covarpop"
  | .covarSamp _ _ => "covarsamp"
  | .firstValue _ => "firstvalue"
  | .lastValue => "lastvalue"
  | .nthValue _ _ => "nthvalue"
  | .regrAvgX _ _ => "regravgx"
  | .regrAvgY _ _ => "regravgy"
  | .regrCount _ _ => "regrcount"
  | .regrIntercept _ _ => "regrintercept"
  | .regrR2 _ _ => "regrr2"
  | .regrSlope _ _ => "regrslope"
  | .regrSxx _ _ => "regrsxx"
  | .regrSxy _ _ => "regrsxy"
  | .regrSyy _ _ => "regrsyy"
  | .stddevPop => "stddevpop"
  | .varPop => "varpop"
  | .varSamp => "varsamp"

/-- A fully-built aggregate expression, as handed to the query engine. -/
inductive AggCall
  | count (e : RExpr)
  | countDistinct (e : RExpr)
  | avg (e : RExpr)
  | stddev (e : RExpr)
  | max (e : RExpr)
  | min (e : RExpr)
  | sum (e : RExpr)
  | median (e : RExpr)
  | covarPop (a b : RExpr)
  | covarSamp (a b : RExpr)
  | firstValue (e : RExpr) (sortExprs : Option (List SortExpr))
  | lastValue (e : RExpr)
  | nthValue (e : RExpr) (n : Int) (sortExprs : List SortExpr)
  | regrAvgX (a b : RExpr)
  | regrAvgY (a b : RExpr)
  | regrCount (a b : RExpr)
  | regrIntercept (a b : RExpr)
  | regrR2 (a b : RExpr)
  | regrSlope (a b : RExpr)
  | regrSxx (a b : RExpr)
  | regrSxy (a b : RExpr)
  | regrSyy (a b : RExpr)
  | stddevPop (e : RExpr)
  | varPop (e : RExpr)
  | varSamp (e : RExpr)
deriving DecidableEq, Repr

/-- The query-engine collaborator: evaluate a zero-group-by aggregate over
a dataframe to a single scalar (or fail with a plan/execution error).
Abstract because the repository delegates it entirely to DataFusion. -/
def Engine := AggCall → DataFrame → Except ValidationError (Option Val)

/-- The expression-building match of `CalculationRule::apply`: two-argument
aggregates need exactly one of `x`/`y`, the rule target column filling the
other slot; otherwise a configuration error. -/
def buildCalcAgg : CalculationType → String → Except ValidationError AggCall
  | .count, c => .ok (.count (.col c))
  | .countDistinct, c => .ok (.countDistinct (.col c))
  | .avg, c => .ok (.avg (.col c))
  | .stdDev, c => .ok (.stddev (.col c))
  | .max, c => .ok (.max (.col c))
  | .min, c => .ok (.min (.col c))
  | .sum, c => .ok (.sum (.col c))
  | .median, c => .ok (.median (.col c))
  | .covarPop (some x) none, c => .ok (.covarPop (.col c) x)
  | .covarPop none (some y), c => .ok (.covarPop y (.col c))
  | .covarPop _ _, _ => .error (.configuration "CovarPop must have either x or y")
  | .covarSamp (some x) none, c => .ok (.covarSamp (.col c) x)
  | .covarSamp none (some y), c => .ok (.covarSamp y (.col c))
  | .covarSamp _ _, _ => .error (.configuration "CovarSamp must have either x or y")
  | .firstValue s, c => .ok (.firstValue (.col c) s)
  | .lastValue, c => .ok (.lastValue (.col c))
  | .nthValue n s, c => .ok (.nthValue (.col c) n (s.getD []))
  | .regrAvgX (some x) none, c => .ok (.regrAvgX (.col c) x)
  | .regrAvgX none (some y), c => .ok (.regrAvgX y (.col c))
  | .regrAvgX _ _, _ => .error (.configuration "RegrAvgX must have either x or y")
  | .regrAvgY (some x) none, c => .ok (.regrAvgY (.col c) x)
  | .regrAvgY none (some y), c => .ok (.regrAvgY y (.col c))
  | .regrAvgY _ _, _ => .error (.configuration "RegrAvgY must have either x or y")
  | .regrCount (some x) none, c => .ok (.regrCount (.col c) x)
  | .regrCount none (some y), c => .ok (.regrCount y (.col c))
  | .regrCount _ _, _ => .error (.configuration "RegrCount must have either x or y")
  | .regrIntercept (some x) none, c => .ok (.regrIntercept (.col c) x)
  | .regrIntercept none (some y), c => .ok (.regrIntercept y (.col c))
  | .regrIntercept _ _, _ => .error (.configuration "RegrIntercept must have either x or y")
  | .regrR2 (some x) none, c => .ok (.regrR2 (.col c) x)
  | .regrR2 none (some y), c => .ok (.regrR2 y (.col c))
  | .regrR2 _ _, _ => .error (.configuration "RegrR2 must have either x or y")
  | .regrSlope (some x) none, c => .ok (.regrSlope (.col c) x)
  | .regrSlope none (some y), c => .ok (.regrSlope y (.col c))
  | .regrSlope _ _, _ => .error (.configuration "RegrSlope must have either x or y")
  | .regrSxx (some x) none, c => .ok (.regrSxx (.col c) x)
  | .regrSxx none (some y), c => .ok (.regrSxx y (.col c))
  | .regrSxx _ _, _ => .error (.configuration "RegrSxx must have either x or y")
  | .regrSxy (some x) none, c => .ok (.regrSxy (.col c) x)
  | .regrSxy none (some y), c => .ok (.regrSxy y (.col c))
  | .regrSxy _ _, _ => .error (.configuration "RegrSxy must have either x or y")
  | .regrSyy (some x) none, c => .ok (.regrSyy (.col c) x)
  | .regrSyy none (some y), c => .ok (.regrSyy y (.col c))
  | .regrSyy _ _, _ => .error (.configuration "RegrSyy must have either x or y")
  | .stddevPop, c => .ok (.stddevPop (.col c))
  | .varPop, c => .ok (.varPop (.col c))
  | .varSamp, c => .ok (.varSamp (.col c))

/-- The concrete `TableRule` implementations the claims range over:
`NullCountRule` and `CalculationRule`. -/
inductive TableRule
  | nullCountRule (negated : Option Bool)
  | calculationRule (ctype : CalculationType)
deriving DecidableEq, Repr

/-- `TableRule::name`. -/
def TableRule.name : TableRule → String
  | .nullCountRule neg => if neg.getD false then "not_null_count" else "null_count"
  | .calculationRule _ => "calculation"

/-- `TableRule::new_column_name`. -/
def TableRule.newColumnName : TableRule → String → String
  | .nullCountRule neg, c => c ++ "_" ++ (TableRule.nullCountRule neg).name
  | .calculationRule ct, c => c ++ "_" ++ ct.lowerName

/-- Number of non-null cells of column `i` (SQL `COUNT(col)`). -/
def countNonNull (df : DataFrame) (i : Nat) : Nat :=
  df.rows.countP (fun r => (r.getD i none).isSome)

/-- `TableRule::apply`: compute one scalar over the whole table and
broadcast it as a constant column on every row (the scalar-subquery
pattern).  `NullCountRule` composes `COUNT(*)` and `COUNT(col)`, which are
exact and modelled directly; `CalculationRule` hands the built aggregate to
the engine. -/
def TableRule.apply (engine : Engine) (t : TableRule) (df : DataFrame) (colName : String) :
    Except ValidationError DataFrame :=
  match t with
  | .nullCountRule neg =>
    match idxOfName df.fields colName with
    | none => .error (.dataFusion ("No field named " ++ colName))
    | some i =>
      let cnt : Nat :=
        if neg.getD false then countNonNull df i
        else df.rows.length - countNonNull df i
      .ok (df.withColumn ⟨(TableRule.nullCountRule neg).newColumnName colName, .num, true⟩
            (List.replicate df.rows.length (some (.num cnt))))
  | .calculationRule ct =>
    match buildCalcAgg ct colName with
    | .error e => .error e
    | .ok agg =>
      match engine agg df with
      | .error e => .error e
      | .ok v =>
        .ok (df.withColumn ⟨(TableRule.calculationRule ct).newColumnName colName, .num, true⟩
              (List.replicate df.rows.length v))

/-! ## Schema rules (rules/schema.rs)

`SchemaRule` is an open trait; the model keeps it open as a name plus a
validation function, with the three built-in variants as constructors. -/

/-- A schema rule: identity plus `validate_schema`. -/
structure SchemaRule where
  name : String
  validate : List Field → Except ValidationError Bool

/-- `ColumnExistsRule`: field lookup by name, `ColumnNotFound` if absent. -/
def columnExistsRule (columnName : String) : SchemaRule where
  name := "column_exists"
  validate := fun s =>
    match s.find? (fun f => f.name == columnName) with
    | some _ => .ok true
    | none => .error (.columnNotFound columnName)

/-- `ColumnTypeRule`: exact type equality against an expected type. -/
def columnTypeRule (columnName : String) (expectedType : DType) : SchemaRule where
  name := "column_type"
  validate := fun s =>
    match s.find? (fun f => f.name == columnName) with
    | some f =>
      if f.dtype = expectedType then .ok true
      else .error (.typeMismatch ("Column: " ++ columnName ++ ", unexpected type"))
    | none => .error (.columnNotFound columnName)

/-- `ColumnNullableRule`: nullability equality against an expectation. -/
def columnNullableRule (columnName : String) (expectedNullable : Bool) : SchemaRule where
  name := "column_nullable"
  validate := fun s =>
    match s.find? (fun f => f.name == columnName) with
    | some f =>
      if f.nullable = expectedNullable then .ok true
      else .error (.columnNullabilityMismatch columnName expectedNullable)
    | none => .error (.columnNotFound columnName)

/-! ## RuleSet orchestrator (lib.rs) -/

/-- `RuleSet`: the three ordered rule collections. -/
structure RuleSet where
  schemaRules : List SchemaRule
  columnRules : List (String × ColumnRule)
  tableRules : List (String × TableRule)

/-- `RuleSet::new`. -/
def RuleSet.new : RuleSet := ⟨[], [], []⟩

/-- `RuleSet::with_schema_rule`. -/
def RuleSet.withSchemaRule (rs : RuleSet) (r : SchemaRule) : RuleSet :=
  { rs with schemaRules := rs.schemaRules ++ [r] }

/-- `RuleSet::with_column_rule`. -/
def RuleSet.withColumnRule (rs : RuleSet) (columnName : String) (r : ColumnRule) : RuleSet :=
  { rs with columnRules := rs.columnRules ++ [(columnName, r)] }

/-- `RuleSet::with_table_rule`: an optional companion check is pushed onto
`column_rules`, keyed by the table rule's derived-column name, before the
table rule itself is recorded. -/
def RuleSet.withTableRule (rs : RuleSet) (columnName : String) (t : TableRule)
    (check : Option ColumnRule) : RuleSet :=
  let rs1 :=
    match check with
    | some ch => { rs with columnRules := rs.columnRules ++ [(t.newColumnName columnName, ch)] }
    | none => rs
  { rs1 with tableRules := rs1.tableRules ++ [(columnName, t)] }

/-- Step 1 of `RuleSet::apply`: run the schema rules in order; a rule that
errors aborts with that error, a rule that returns `false` aborts with a
`Schema` error naming the rule. -/
def runSchemaRules : List SchemaRule → List Field → Except ValidationError Unit
  | [], _ => .ok ()
  | r :: rest, s =>
    match r.validate s with
    | .error e => .error e
    | .ok false => .error (.schema ("Schema rule " ++ r.name ++ " failed"))
    | .ok true => runSchemaRules rest s

/-- Step 2 of `RuleSet::apply` (= `apply_table_rules`): fold the table
rules over the running dataframe. -/
def applyTableRules (engine : Engine) :
    List (String × TableRule) → DataFrame → Except ValidationError DataFrame
  | [], df => .ok df
  | (c, t) :: rest, df =>
    match t.apply engine df c with
    | .error e => .error e
    | .ok df2 => applyTableRules engine rest df2

/-- Step 3 of `RuleSet::apply`: fold the column rules over the running
dataframe. -/
def applyColumnRules : List (String × ColumnRule) → DataFrame → Except ValidationError DataFrame
  | [], df => .ok df
  | (c, r) :: rest, df =>
    match r.apply df c with
    | .error e => .error e
    | .ok df2 => applyColumnRules rest df2

/-- The derived-column names collected from the column rules (the
`check_columns` vector). -/
def checkColNames (rs : RuleSet) : List String :=
  rs.columnRules.map (fun cr => cr.2.newColumnName cr.1)

/-- Steps 4 and 5 of `RuleSet::apply`, per row: cast every check column to
boolean and reduce left-to-right with AND; the empty reduction is the
literal `true`. -/
def verdictValue (fields : List Field) (cols : List String) (row : List (Option Val)) :
    Option Val :=
  match cols.map (fun n => sqlCastBool (lookupVal fields row n)) with
  | [] => some (.bool true)
  | b :: bs => (bs.foldl sqlAnd b).map .bool

/-- Append the `dfq_pass` verdict column. -/
def addVerdict (rs : RuleSet) (df : DataFrame) : DataFrame :=
  df.withColumn ⟨"dfq_pass", .bool, true⟩
    (df.rows.map (fun row => verdictValue df.fields (checkColNames rs) row))

/-- `RuleSet::apply`: schema validation, table rules, column rules, then
the combined verdict column. -/
def RuleSet.apply (engine : Engine) (rs : RuleSet) (df : DataFrame) :
    Except ValidationError DataFrame :=
  match runSchemaRules rs.schemaRules df.fields with
  | .error e => .error e
  | .ok _ =>
    match applyTableRules engine rs.tableRules df with
    | .error e => .error e
    | .ok df1 =>
      match applyColumnRules rs.columnRules df1 with
      | .error e => .error e
      | .ok df2 => .ok (addVerdict rs df2)

/-- The pass filter predicate of `partition`: `dfq_pass = true`. -/
def passPred (fields : List Field) (row : List (Option Val)) : Option Bool :=
  sqlCmp valEq (lookupVal fields row "dfq_pass") (some (.bool true))

/-- `RuleSet::partition`: run `apply` once (the `cache` materialization is
an engine no-op in the model), then keep the rows where the verdict is
true, projected back to the input columns, and the rows where its negation
is true, with every derived column kept. -/
def RuleSet.partition (engine : Engine) (rs : RuleSet) (df : DataFrame) :
    Except ValidationError (DataFrame × DataFrame) :=
  match rs.apply engine df with
  | .error e => .error e
  | .ok dq =>
    match (dq.filterRows (fun row => passPred dq.fields row == some true)).selectColumns
        (df.fields.map (fun f => f.name)) with
    | .error e => .error e
    | .ok passDf =>
      .ok (passDf, dq.filterRows (fun row => sqlNot (passPred dq.fields row) == some true))

/-! ## The two-argument calculation family, enumerated

A meta-level enumeration of the eleven covariance/regression aggregates,
used to state one theorem about all of them. -/

/-- The two-argument members of `CalculationType`. -/
inductive TwoArgKind
  | covarPop
  | covarSamp
  | regrAvgX
  | regrAvgY
  | regrCount
  | regrIntercept
  | regrR2
  | regrSlope
  | regrSxx
  | regrSxy
  | regrSyy
deriving DecidableEq, Repr

/-- The `CalculationType` of a two-argument kind with given `x`/`y`. -/
def TwoArgKind.calc : TwoArgKind → Option RExpr → Option RExpr → CalculationType
  | .covarPop, x, y => .covarPop x y
  | .covarSamp, x, y => .covarSamp x y
  | .regrAvgX, x, y => .regrAvgX x y
  | .regrAvgY, x, y => .regrAvgY x y
  | .regrCount, x, y => .regrCount x y
  | .regrIntercept, x, y => .regrIntercept x y
  | .regrR2, x, y => .regrR2 x y
  | .regrSlope, x, y => .regrSlope x y
  | .regrSxx, x, y => .regrSxx x y
  | .regrSxy, x, y => .regrSxy x y
  | .regrSyy, x, y => .regrSyy x y

/-- The built aggregate of a two-argument kind on operands `a`, `b`. -/
def TwoArgKind.agg : TwoArgKind → RExpr → RExpr → AggCall
  | .covarPop, a, b => .covarPop a b
  | .covarSamp, a, b => .covarSamp a b
  | .regrAvgX, a, b => .regrAvgX a b
  | .regrAvgY, a, b => .regrAvgY a b
  | .regrCount, a, b => .regrCount a b
  | .regrIntercept, a, b => .regrIntercept a b
  | .regrR2, a, b => .regrR2 a b
  | .regrSlope, a, b => .regrSlope a b
  | .regrSxx, a, b => .regrSxx a b
  | .regrSxy, a, b => .regrSxy a b
  | .regrSyy, a, b => .regrSyy a b

/-- The configuration-error message of a two-argument kind. -/
def TwoArgKind.configMessage : TwoArgKind → String
  | .covarPop => "CovarPop must have either x or y"
  | .covarSamp => "CovarSamp must have either x or y"
  | .regrAvgX => "RegrAvgX must have either x or y"
  | .regrAvgY => "RegrAvgY must have either x or y"
  | .regrCount => "RegrCount must have either x or y"
  | .regrIntercept => "RegrIntercept must have either x or y"
  | .regrR2 => "RegrR2 must have either x or y"
  | .regrSlope => "RegrSlope must have either x or y"
  | .regrSxx => "RegrSxx must have either x or y"
  | .regrSxy => "RegrSxy must have either x or y"
  | .regrSyy => "RegrSyy must have either x or y"

/-! ## Concrete fixtures for witnesses and counterexamples -/

/-- An engine that answers every aggregate with NULL; the claims that use
it do not depend on aggregate values. -/
def dummyEngine : Engine := fun _ _ => .ok none

/-- One-row dataset whose only value is NULL. -/
def c1df : DataFrame := ⟨[⟨"score", DType.num, true⟩], [[none]]⟩

/-- A single range rule on the null column. -/
def c1rs : RuleSet := RuleSet.new.withColumnRule "score" (.rangeRule 80 100 none)

/-- Same shape as `c1df`, dedicated to claim C2. -/
def c2df : DataFrame := ⟨[⟨"score", DType.num, true⟩], [[none]]⟩

/-- Same shape as `c1rs`, dedicated to claim C2. -/
def c2rs : RuleSet := RuleSet.new.withColumnRule "score" (.rangeRule 80 100 none)

/-- A one-row dataset with a non-null value, for the C2 witness. -/
def c2wdf : DataFrame := ⟨[⟨"score", DType.num, true⟩], [[some (.num 85)]]⟩

/-- Rule set of the C2 witness. -/
def c2wrs : RuleSet := RuleSet.new.withColumnRule "score" (.rangeRule 80 100 none)

/-- Dataset of the C3 witness. -/
def c3df : DataFrame := ⟨[⟨"a", DType.num, true⟩], [[some (.num 5)]]⟩

/-- Rule set of the C3 witness: one column rule and one table rule. -/
def c3rs : RuleSet :=
  (RuleSet.new.withColumnRule "a" (.nullRule (some true))).withTableRule
    "a" (.nullCountRule none) none

/-- Dataset for claim C4: no column named `x`. -/
def c4df : DataFrame := ⟨[⟨"id", DType.num, false⟩], [[some (.num 1)]]⟩

/-- Rule set for claim C4: a single column-exists schema rule on `x`. -/
def c4rs : RuleSet := RuleSet.new.withSchemaRule (columnExistsRule "x")

/-- Dataset of the C5 witness. -/
def c5df : DataFrame := ⟨[⟨"a", DType.num, true⟩], [[some (.num 1)], [none]]⟩

/-- Rule set of the C5 witness: one null rule. -/
def c5rs : RuleSet := RuleSet.new.withColumnRule "a" (.nullRule (some true))

/-- Dataset of the C9 witness. -/
def c9df : DataFrame := ⟨[⟨"a", DType.num, true⟩], [[some (.num 1)], [none]]⟩

/-- The dataset `apply` derives from `c1df` under `c1rs`: the range rule
column and the verdict are both NULL on the null row. -/
def c1dq : DataFrame :=
  ⟨[⟨"score", DType.num, true⟩, ⟨"score_in_range", DType.bool, true⟩,
    ⟨"dfq_pass", DType.bool, true⟩],
   [[none, none, none]]⟩

/-- Pass side of `partition` on `c1df` under `c1rs`: empty. -/
def c1p : DataFrame := ⟨[⟨"score", DType.num, true⟩], []⟩

/-- Fail side of `partition` on `c1df` under `c1rs`: also empty. -/
def c1f : DataFrame := ⟨c1dq.fields, []⟩

/-- Pass side of `partition` on `c2df` under `c2rs`: empty. -/
def c2p : DataFrame := ⟨[⟨"score", DType.num, true⟩], []⟩

/-- Fail side of `partition` on `c2df` under `c2rs`: empty. -/
def c2f : DataFrame :=
  ⟨[⟨"score", DType.num, true⟩, ⟨"score_in_range", DType.bool, true⟩,
    ⟨"dfq_pass", DType.bool, true⟩],
   []⟩

/-- The dataset `apply` derives from `c2wdf` under `c2wrs`. -/
def c2wdq : DataFrame :=
  ⟨[⟨"score", DType.num, true⟩, ⟨"score_in_range", DType.bool, true⟩,
    ⟨"dfq_pass", DType.bool, true⟩],
   [[some (.num 85), some (.bool true), some (.bool true)]]⟩

/-- Pass side of `partition` on `c2wdf` under `c2wrs`. -/
def c2wp : DataFrame := ⟨[⟨"score", DType.num, true⟩], [[some (.num 85)]]⟩

/-- Fail side of `partition` on `c2wdf` under `c2wrs`. -/
def c2wf : DataFrame := ⟨c2wdq.fields, []⟩

/-- Pass side of `partition` on `c3df` under `c3rs`. -/
def c3p : DataFrame := ⟨[⟨"a", DType.num, true⟩], [[some (.num 5)]]⟩

/-- Fail side of `partition` on `c3df` under `c3rs`: empty, but carrying
every derived column. -/
def c3f : DataFrame :=
  ⟨[⟨"a", DType.num, true⟩, ⟨"a_null_count", DType.num, true⟩,
    ⟨"a_not_null", DType.bool, true⟩, ⟨"dfq_pass", DType.bool, true⟩],
   []⟩

/-- The empty rule set used by the C5 witness. -/
def c5ers : RuleSet := RuleSet.new

/-- The dataset `apply` derives from `c5df` under the empty rule set:
verdict literally true on every row. -/
def c5edq : DataFrame :=
  ⟨[⟨"a", DType.num, true⟩, ⟨"dfq_pass", DType.bool, true⟩],
   [[some (.num 1), some (.bool true)], [none, some (.bool true)]]⟩

/-- Output of the null-count table rule on `c9df`. -/
def c9df2 : DataFrame :=
  ⟨[⟨"a", DType.num, true⟩, ⟨"a_null_count", DType.num, true⟩],
   [[some (.num 1), some (.num 1)], [none, some (.num 1)]]⟩

/-- The single scalar a table rule broadcasts over a dataframe: the
null/not-null count, or the engine's answer to the built aggregate. -/
def broadcastValue (engine : Engine) (t : TableRule) (df : DataFrame) (c : String) :
    Option Val :=
  match t with
  | .nullCountRule neg =>
    match idxOfName df.fields c with
    | some i =>
      let cnt : Nat :=
        if neg.getD false then countNonNull df i
        else df.rows.length - countNonNull df i
      some (.num cnt)
    | none => none
  | .calculationRule ct =>
    match buildCalcAgg ct c with
    | .ok agg =>
      match engine agg df with
      | .ok v => v
      | .error _ => none
    | .error _ => none

/-! ## Basic lemmas about column resolution and `with_column` -/

theorem idxOfName_lt_length {fields : List Field} {n : String} {i : Nat}
    (h : idxOfName fields n = some i) : i < fields.length := by
  induction fields generalizing i with
  | nil => simp [idxOfName] at h
  | cons f fs ih =>
    simp only [idxOfName] at h
    by_cases hf : f.name == n
    · rw [if_pos hf] at h
      simp only [Option.some.injEq] at h
      subst h
      simp
    · rw [if_neg hf] at h
      cases hr : idxOfName fs n with
      | none => rw [hr] at h; simp at h
      | some j =>
        rw [hr] at h
        simp only [Option.map_some', Option.some.injEq] at h
        subst h
        have := ih hr
        simp only [List.length_cons]
        omega

theorem getD_idxOfName {fields : List Field} {n : String} {i : Nat}
    (h : idxOfName fields n = some i) : (fields.getD i default).name = n := by
  induction fields generalizing i with
  | nil => simp [idxOfName] at h
  | cons f fs ih =>
    simp only [idxOfName] at h
    by_cases hf : f.name == n
    · rw [if_pos hf] at h
      simp only [Option.some.injEq] at h
      subst h
      simpa using hf
    · rw [if_neg hf] at h
      cases hr : idxOfName fs n with
      | none => rw [hr] at h; simp at h
      | some j =>
        rw [hr] at h
        simp only [Option.map_some', Option.some.injEq] at h
        subst h
        simpa [List.getD] using ih hr

theorem idxOfName_isSome_iff {fields : List Field} {n : String} :
    (idxOfName fields n).isSome ↔ n ∈ fields.map Field.name := by
  induction fields with
  | nil => simp [idxOfName]
  | cons f fs ih =>
    simp only [idxOfName, List.map_cons, List.mem_cons]
    by_cases hf : f.name == n
    · have hfn : f.name = n := by simpa using hf
      rw [if_pos hf]
      simp [hfn]
    · have hfn : ¬ f.name = n := by simpa using hf
      rw [if_neg hf]
      simp only [Option.isSome_map']
      rw [ih]
      constructor
      · exact Or.inr
      · rintro (hfn2 | hm)
        · exact absurd hfn2.symm hfn
        · exact hm

theorem idxOfName_set_self {fields : List Field} {f : Field} {i : Nat}
    (h : idxOfName fields f.name = some i) :
    idxOfName (fields.set i f) f.name = some i := by
  induction fields generalizing i with
  | nil => simp [idxOfName] at h
  | cons g gs ih =>
    simp only [idxOfName] at h
    by_cases hg : g.name == f.name
    · rw [if_pos hg] at h
      simp only [Option.some.injEq] at h
      subst h
      simp [List.set, idxOfName]
    · rw [if_neg hg] at h
      cases hr : idxOfName gs f.name with
      | none => rw [hr] at h; simp at h
      | some j =>
        rw [hr] at h
        simp only [Option.map_some', Option.some.injEq] at h
        subst h
        simp [List.set, idxOfName, hg, ih hr]

theorem map_name_set_self {fields : List Field} {f : Field} {i : Nat}
    (h : idxOfName fields f.name = some i) :
    (fields.set i f).map Field.name = fields.map Field.name := by
  induction fields generalizing i with
  | nil => simp [idxOfName] at h
  | cons g gs ih =>
    simp only [idxOfName] at h
    by_cases hg : g.name == f.name
    · rw [if_pos hg] at h
      simp only [Option.some.injEq] at h
      subst h
      have hgn : g.name = f.name := by simpa using hg
      simp [List.set, hgn]
    · rw [if_neg hg] at h
      cases hr : idxOfName gs f.name with
      | none => rw [hr] at h; simp at h
      | some j =>
        rw [hr] at h
        simp only [Option.map_some', Option.some.injEq] at h
        subst h
        simp [List.set, ih hr]

theorem idxOfName_append_of_isSome {fields : List Field} {n : String} {l : List Field}
    (h : (idxOfName fields n).isSome) :
    idxOfName (fields ++ l) n = idxOfName fields n := by
  induction fields with
  | nil => simp [idxOfName] at h
  | cons f fs ih =>
    simp only [List.cons_append, idxOfName]
    by_cases hf : f.name == n
    · rw [if_pos hf, if_pos hf]
    · rw [if_neg hf, if_neg hf]
      simp only [idxOfName, if_neg hf, Option.isSome_map'] at h
      simp only [List.append_eq]
      rw [ih h]

theorem idxOfName_append_self {fields : List Field} {f : Field}
    (h : idxOfName fields f.name = none) :
    idxOfName (fields ++ [f]) f.name = some fields.length := by
  induction fields with
  | nil => simp [idxOfName]
  | cons g gs ih =>
    simp only [idxOfName] at h
    by_cases hg : g.name == f.name
    · rw [if_pos hg] at h
      simp at h
    · rw [if_neg hg] at h
      simp only [Option.map_eq_none'] at h
      simp only [List.cons_append, idxOfName, if_neg hg, List.append_eq]
      rw [ih h]
      simp

theorem getD_set_self {l : List (Option Val)} {i : Nat} {v : Option Val}
    (h : i < l.length) : (l.set i v).getD i none = v := by
  induction l generalizing i with
  | nil => simp at h
  | cons x xs ih =>
    cases i with
    | zero => simp [List.set, List.getD]
    | succ j =>
      simp only [List.set, List.getD_cons_succ]
      exact ih (by simpa using h)

theorem getD_append_self {l : List (Option Val)} {v : Option Val} :
    (l ++ [v]).getD l.length none = v := by
  induction l with
  | nil => simp [List.getD]
  | cons x xs ih => simp only [List.cons_append, List.length_cons, List.getD_cons_succ, ih]

/-! ## Lemmas about `with_column` -/

theorem names_withColumn (df : DataFrame) (f : Field) (vals : List (Option Val)) :
    (df.withColumn f vals).fields.map Field.name = df.fields.map Field.name ∨
    (df.withColumn f vals).fields.map Field.name = df.fields.map Field.name ++ [f.name] := by
  unfold DataFrame.withColumn
  cases h : idxOfName df.fields f.name with
  | some i => exact Or.inl (map_name_set_self h)
  | none => exact Or.inr (by simp)

theorem mem_names_withColumn {df : DataFrame} {n : String} (f : Field)
    (vals : List (Option Val)) (h : n ∈ df.fields.map Field.name) :
    n ∈ (df.withColumn f vals).fields.map Field.name := by
  rcases names_withColumn df f vals with he | he
  · rw [he]; exact h
  · rw [he]; exact List.mem_append_left _ h

theorem self_mem_names_withColumn (df : DataFrame) (f : Field) (vals : List (Option Val)) :
    f.name ∈ (df.withColumn f vals).fields.map Field.name := by
  unfold DataFrame.withColumn
  cases h : idxOfName df.fields f.name with
  | some i =>
    simp only
    rw [map_name_set_self h]
    exact idxOfName_isSome_iff.mp (by rw [h]; rfl)
  | none => simp

theorem rows_length_withColumn {df : DataFrame} {vals : List (Option Val)} (f : Field)
    (hlen : vals.length = df.rows.length) :
    (df.withColumn f vals).rows.length = df.rows.length := by
  unfold DataFrame.withColumn
  cases h : idxOfName df.fields f.name <;> simp [hlen]

theorem aligned_withColumn {df : DataFrame} (f : Field) (vals : List (Option Val))
    (hal : df.aligned = true) : (df.withColumn f vals).aligned = true := by
  unfold DataFrame.withColumn
  simp only [DataFrame.aligned, List.all_eq_true, beq_iff_eq] at hal
  cases h : idxOfName df.fields f.name with
  | some i =>
    simp only [DataFrame.aligned, List.all_eq_true, beq_iff_eq]
    intro r hr
    simp only [List.mem_map] at hr
    obtain ⟨rv, hrv, hr⟩ := hr
    subst hr
    have := hal rv.1 (List.of_mem_zip hrv).1
    simp [this]
  | none =>
    simp only [DataFrame.aligned, List.all_eq_true, beq_iff_eq]
    intro r hr
    simp only [List.mem_map] at hr
    obtain ⟨rv, hrv, hr⟩ := hr
    subst hr
    have := hal rv.1 (List.of_mem_zip hrv).1
    simp [this]

theorem zip_map_set_getD {rows : List (List (Option Val))} {vals : List (Option Val)}
    {i : Nat} (hlen : vals.length = rows.length) (hr : ∀ r ∈ rows, i < r.length) :
    ((rows.zip vals).map (fun rv => rv.1.set i rv.2)).map (fun r => r.getD i none) = vals := by
  induction rows generalizing vals with
  | nil => cases vals with
    | nil => simp
    | cons v vs => simp at hlen
  | cons r rs ih =>
    cases vals with
    | nil => simp at hlen
    | cons v vs =>
      simp only [List.zip_cons_cons, List.map_cons, List.cons.injEq]
      constructor
      · exact getD_set_self (hr r (by simp))
      · exact ih (by simpa using hlen) (fun r2 h2 => hr r2 (by simp [h2]))

theorem zip_map_append_getD {rows : List (List (Option Val))} {vals : List (Option Val)}
    {k : Nat} (hlen : vals.length = rows.length) (hr : ∀ r ∈ rows, r.length = k) :
    ((rows.zip vals).map (fun rv => rv.1 ++ [rv.2])).map (fun r => r.getD k none) = vals := by
  induction rows generalizing vals with
  | nil => cases vals with
    | nil => simp
    | cons v vs => simp at hlen
  | cons r rs ih =>
    cases vals with
    | nil => simp at hlen
    | cons v vs =>
      simp only [List.zip_cons_cons, List.map_cons, List.cons.injEq]
      constructor
      · rw [← hr r (by simp)]
        exact getD_append_self
      · exact ih (by simpa using hlen) (fun r2 h2 => hr r2 (by simp [h2]))

theorem columnValues_withColumn {df : DataFrame} (f : Field) (vals : List (Option Val))
    (hal : df.aligned = true) (hlen : vals.length = df.rows.length) :
    (df.withColumn f vals).columnValues f.name = some vals := by
  simp only [DataFrame.aligned, List.all_eq_true, beq_iff_eq] at hal
  unfold DataFrame.withColumn DataFrame.columnValues
  cases h : idxOfName df.fields f.name with
  | some i =>
    simp only [idxOfName_set_self h, Option.map_some', Option.some.injEq]
    exact zip_map_set_getD hlen
      (fun r hr => by rw [hal r hr]; exact idxOfName_lt_length h)
  | none =>
    simp only [idxOfName_append_self h, Option.map_some', Option.some.injEq]
    exact zip_map_append_getD hlen (fun r hr => hal r hr)

/-! ## Lemmas about rule application -/

theorem map_eq_self_of_mem {α : Type} {l : List α} {F : α → α} (h : ∀ a ∈ l, F a = a) :
    l.map F = l := by
  induction l with
  | nil => rfl
  | cons a as ih => simp [h a (by simp), ih (fun b hb => h b (by simp [hb]))]

theorem columnRule_apply_ok {r : ColumnRule} {df df2 : DataFrame} {c : String}
    (h : r.apply df c = .ok df2) :
    ∃ fl : Field, fl.name = r.newColumnName c ∧
      df2 = df.withColumn fl (df.rows.map (r.rowValue df.fields c)) := by
  cases r with
  | nullRule neg =>
    simp only [ColumnRule.apply] at h
    split at h
    · exact ⟨_, rfl, (Except.ok.inj h).symm⟩
    · simp at h
  | rangeRule mn mx neg =>
    simp only [ColumnRule.apply] at h
    split at h
    · exact ⟨_, rfl, (Except.ok.inj h).symm⟩
    · simp at h
  | patternRule pat neg cs =>
    simp only [ColumnRule.apply] at h
    split at h
    · exact ⟨_, rfl, (Except.ok.inj h).symm⟩
    · simp at h
  | comparisonRule v neg eq ct =>
    simp only [ColumnRule.apply] at h
    split at h
    · exact ⟨_, rfl, (Except.ok.inj h).symm⟩
    · simp at h
  | lengthRule mn mx =>
    cases mn <;> cases mx <;> simp only [ColumnRule.apply] at h
    · simp at h
    all_goals
      split at h
      · exact ⟨_, rfl, (Except.ok.inj h).symm⟩
      · simp at h
  | customRule rn e =>
    simp only [ColumnRule.apply] at h
    exact ⟨_, rfl, (Except.ok.inj h).symm⟩

theorem columnRule_apply_columnValues {r : ColumnRule} {df df2 : DataFrame} {c : String}
    (hal : df.aligned = true) (h : r.apply df c = .ok df2) :
    df2.columnValues (r.newColumnName c) = some (df.rows.map (r.rowValue df.fields c)) := by
  obtain ⟨fl, hname, hdf2⟩ := columnRule_apply_ok h
  subst hdf2
  rw [← hname]
  exact columnValues_withColumn fl _ hal (by simp)

theorem columnRule_apply_rows {r : ColumnRule} {df df2 : DataFrame} {c : String}
    (h : r.apply df c = .ok df2) :
    df2.rows.length = df.rows.length ∧ (df.aligned = true → df2.aligned = true) := by
  obtain ⟨fl, _, hdf2⟩ := columnRule_apply_ok h
  subst hdf2
  exact ⟨rows_length_withColumn fl (by simp), fun hal => aligned_withColumn fl _ hal⟩

theorem columnRule_apply_names {r : ColumnRule} {df df2 : DataFrame} {c : String}
    (h : r.apply df c = .ok df2) :
    (∀ n ∈ df.fields.map Field.name, n ∈ df2.fields.map Field.name) ∧
      r.newColumnName c ∈ df2.fields.map Field.name := by
  obtain ⟨fl, hname, hdf2⟩ := columnRule_apply_ok h
  subst hdf2
  exact ⟨fun n hn => mem_names_withColumn fl _ hn,
         hname ▸ self_mem_names_withColumn df fl _⟩

theorem tableRule_apply_ok {engine : Engine} {t : TableRule} {df df2 : DataFrame} {c : String}
    (h : t.apply engine df c = .ok df2) :
    ∃ (fl : Field) (v : Option Val), fl.name = t.newColumnName c ∧
      df2 = df.withColumn fl (List.replicate df.rows.length v) := by
  cases t with
  | nullCountRule neg =>
    simp only [TableRule.apply] at h
    cases hidx : idxOfName df.fields c with
    | none => rw [hidx] at h; simp at h
    | some i =>
      rw [hidx] at h
      simp only [Except.ok.injEq] at h
      exact ⟨_, _, rfl, h.symm⟩
  | calculationRule ct =>
    simp only [TableRule.apply] at h
    cases hb : buildCalcAgg ct c with
    | error e => rw [hb] at h; simp at h
    | ok agg =>
      rw [hb] at h
      dsimp only at h
      cases he : engine agg df with
      | error e => rw [he] at h; simp at h
      | ok v =>
        rw [he] at h
        simp only [Except.ok.injEq] at h
        exact ⟨_, _, rfl, h.symm⟩

theorem tableRule_apply_rows {engine : Engine} {t : TableRule} {df df2 : DataFrame} {c : String}
    (h : t.apply engine df c = .ok df2) :
    df2.rows.length = df.rows.length ∧ (df.aligned = true → df2.aligned = true) := by
  obtain ⟨fl, v, _, hdf2⟩ := tableRule_apply_ok h
  subst hdf2
  exact ⟨rows_length_withColumn fl (by simp), fun hal => aligned_withColumn fl _ hal⟩

theorem tableRule_apply_names {engine : Engine} {t : TableRule} {df df2 : DataFrame} {c : String}
    (h : t.apply engine df c = .ok df2) :
    (∀ n ∈ df.fields.map Field.name, n ∈ df2.fields.map Field.name) ∧
      t.newColumnName c ∈ df2.fields.map Field.name := by
  obtain ⟨fl, v, hname, hdf2⟩ := tableRule_apply_ok h
  subst hdf2
  exact ⟨fun n hn => mem_names_withColumn fl _ hn,
         hname ▸ self_mem_names_withColumn df fl _⟩

theorem applyColumnRules_facts {rules : List (String × ColumnRule)} {df df1 : DataFrame}
    (h : applyColumnRules rules df = .ok df1) :
    df1.rows.length = df.rows.length ∧ (df.aligned = true → df1.aligned = true) ∧
    (∀ n ∈ df.fields.map Field.name, n ∈ df1.fields.map Field.name) ∧
    (∀ cr ∈ rules, (cr.2 : ColumnRule).newColumnName cr.1 ∈ df1.fields.map Field.name) := by
  induction rules generalizing df with
  | nil =>
    simp only [applyColumnRules, Except.ok.injEq] at h
    subst h
    exact ⟨rfl, id, fun n hn => hn, by simp⟩
  | cons cr rest ih =>
    obtain ⟨c, r⟩ := cr
    simp only [applyColumnRules] at h
    cases ha : r.apply df c with
    | error e => rw [ha] at h; simp at h
    | ok dfa =>
      rw [ha] at h
      obtain ⟨h1, h2, h3, h4⟩ := ih h
      obtain ⟨hr1, hr2⟩ := columnRule_apply_rows ha
      obtain ⟨hn1, hn2⟩ := columnRule_apply_names ha
      refine ⟨h1.trans hr1, fun hal => h2 (hr2 hal), fun n hn => h3 n (hn1 n hn), ?_⟩
      intro cr2 hcr2
      rcases List.mem_cons.mp hcr2 with he | hm
      · subst he
        exact h3 _ hn2
      · exact h4 cr2 hm

theorem applyTableRules_facts {engine : Engine} {rules : List (String × TableRule)}
    {df df1 : DataFrame} (h : applyTableRules engine rules df = .ok df1) :
    df1.rows.length = df.rows.length ∧ (df.aligned = true → df1.aligned = true) ∧
    (∀ n ∈ df.fields.map Field.name, n ∈ df1.fields.map Field.name) ∧
    (∀ cr ∈ rules, (cr.2 : TableRule).newColumnName cr.1 ∈ df1.fields.map Field.name) := by
  induction rules generalizing df with
  | nil =>
    simp only [applyTableRules, Except.ok.injEq] at h
    subst h
    exact ⟨rfl, id, fun n hn => hn, by simp⟩
  | cons cr rest ih =>
    obtain ⟨c, t⟩ := cr
    simp only [applyTableRules] at h
    cases ha : t.apply engine df c with
    | error e => rw [ha] at h; simp at h
    | ok dfa =>
      rw [ha] at h
      obtain ⟨h1, h2, h3, h4⟩ := ih h
      obtain ⟨hr1, hr2⟩ := tableRule_apply_rows ha
      obtain ⟨hn1, hn2⟩ := tableRule_apply_names ha
      refine ⟨h1.trans hr1, fun hal => h2 (hr2 hal), fun n hn => h3 n (hn1 n hn), ?_⟩
      intro cr2 hcr2
      rcases List.mem_cons.mp hcr2 with he | hm
      · subst he
        exact h3 _ hn2
      · exact h4 cr2 hm

theorem apply_ok_inv {engine : Engine} {rs : RuleSet} {df dq : DataFrame}
    (h : rs.apply engine df = .ok dq) :
    ∃ df1 df2, runSchemaRules rs.schemaRules df.fields = .ok () ∧
      applyTableRules engine rs.tableRules df = .ok df1 ∧
      applyColumnRules rs.columnRules df1 = .ok df2 ∧
      dq = addVerdict rs df2 := by
  unfold RuleSet.apply at h
  cases hs : runSchemaRules rs.schemaRules df.fields with
  | error e => rw [hs] at h; simp at h
  | ok u =>
    rw [hs] at h
    dsimp only at h
    cases ht : applyTableRules engine rs.tableRules df with
    | error e => rw [ht] at h; simp at h
    | ok df1 =>
      rw [ht] at h
      dsimp only at h
      cases hc : applyColumnRules rs.columnRules df1 with
      | error e => rw [hc] at h; simp at h
      | ok df2 =>
        rw [hc] at h
        simp only [Except.ok.injEq] at h
        refine ⟨df1, df2, ?_, rfl, hc, h.symm⟩
        cases u
        rfl

theorem apply_rows {engine : Engine} {rs : RuleSet} {df dq : DataFrame}
    (h : rs.apply engine df = .ok dq) :
    dq.rows.length = df.rows.length ∧ (df.aligned = true → dq.aligned = true) := by
  obtain ⟨df1, df2, _, ht, hc, hdq⟩ := apply_ok_inv h
  obtain ⟨ht1, ht2⟩ := applyTableRules_facts ht
  obtain ⟨hc1, hc2, _, _⟩ := applyColumnRules_facts hc
  subst hdq
  unfold addVerdict
  constructor
  · rw [rows_length_withColumn _ (by simp), hc1, ht1]
  · intro hal
    exact aligned_withColumn _ _ (hc2 (ht2.1 hal))

theorem selectColumns_ok_facts {df out : DataFrame} {ns : List String}
    (h : df.selectColumns ns = .ok out) :
    out.fields.map Field.name = ns ∧ out.rows.length = df.rows.length := by
  unfold DataFrame.selectColumns at h
  split at h
  case isTrue hall =>
    simp only [Except.ok.injEq] at h
    subst h
    simp only [List.all_eq_true, List.mem_map, forall_exists_index, and_imp] at hall
    constructor
    · rw [List.map_map, List.map_map]
      apply map_eq_self_of_mem
      intro n hn
      have hsome : (idxOfName df.fields n).isSome := hall _ n hn rfl
      cases hidx : idxOfName df.fields n with
      | none => rw [hidx] at hsome; simp at hsome
      | some i => simp only [Function.comp_apply, hidx, Option.getD_some]; exact getD_idxOfName hidx
    · simp
  case isFalse => simp at h

theorem partition_ok_inv {engine : Engine} {rs : RuleSet} {df p f : DataFrame}
    (hp : rs.partition engine df = .ok (p, f)) :
    ∃ dq, rs.apply engine df = .ok dq ∧
      (dq.filterRows (fun row => passPred dq.fields row == some true)).selectColumns
          (df.fields.map (fun fl => fl.name)) = .ok p ∧
      f = dq.filterRows (fun row => sqlNot (passPred dq.fields row) == some true) := by
  unfold RuleSet.partition at hp
  cases hap : rs.apply engine df with
  | error e => rw [hap] at hp; simp at hp
  | ok dq =>
    rw [hap] at hp
    dsimp only at hp
    cases hsel : (dq.filterRows (fun row => passPred dq.fields row == some true)).selectColumns
        (df.fields.map (fun fl => fl.name)) with
    | error e => rw [hsel] at hp; simp at hp
    | ok passDf =>
      rw [hsel] at hp
      simp only [Except.ok.injEq, Prod.mk.injEq] at hp
      exact ⟨dq, rfl, hp.1 ▸ hsel, hp.2.symm⟩

theorem countP_optBool {α : Type} (l : List α) (g : α → Option Bool) :
    l.countP (fun a => g a == some true) + l.countP (fun a => g a == some false) +
      l.countP (fun a => g a == none) = l.length := by
  induction l with
  | nil => simp
  | cons a as ih =>
    rw [List.countP_cons, List.countP_cons, List.countP_cons, List.length_cons, ← ih]
    cases hga : g a with
    | none =>
      simp
      omega
    | some b =>
      cases b
      · simp
        omega
      · simp
        omega

theorem sqlAnd_eq_true {x y : Option Bool} (h : sqlAnd x y = some true) :
    x = some true ∧ y = some true := by
  cases x with
  | none => cases y with
    | none => simp [sqlAnd] at h
    | some b => cases b <;> simp [sqlAnd] at h
  | some bx =>
    cases bx
    · cases y with
      | none => simp [sqlAnd] at h
      | some b => cases b <;> simp [sqlAnd] at h
    · cases y with
      | none => simp [sqlAnd] at h
      | some b =>
        cases b
        · simp [sqlAnd] at h
        · exact ⟨rfl, rfl⟩

theorem foldl_sqlAnd_eq_true {bs : List (Option Bool)} {b : Option Bool}
    (h : bs.foldl sqlAnd b = some true) : b = some true ∧ ∀ x ∈ bs, x = some true := by
  induction bs generalizing b with
  | nil => exact ⟨h, by simp⟩
  | cons x xs ih =>
    rw [List.foldl_cons] at h
    obtain ⟨h1, h2⟩ := ih h
    obtain ⟨hb, hx⟩ := sqlAnd_eq_true h1
    refine ⟨hb, ?_⟩
    intro y hy
    rcases List.mem_cons.mp hy with he | hm
    · subst he; exact hx
    · exact h2 y hm

theorem sqlNot_eq_some_true (x : Option Bool) : (sqlNot x == some true) = (x == some false) := by
  cases x with
  | none => rfl
  | some b => cases b <;> rfl

theorem map_const_replicate {α β : Type} (l : List α) (c : β) :
    l.map (fun _ => c) = List.replicate l.length c := by
  induction l with
  | nil => rfl
  | cons a as ih => simp [List.replicate, ih]

theorem runSchemaRules_prefix (pre post : List SchemaRule) (r : SchemaRule) (s : List Field)
    (hpre : ∀ r2 ∈ pre, r2.validate s = .ok true) :
    runSchemaRules (pre ++ r :: post) s =
      match r.validate s with
      | .error e => .error e
      | .ok false => .error (.schema ("Schema rule " ++ r.name ++ " failed"))
      | .ok true => runSchemaRules post s := by
  induction pre with
  | nil => rfl
  | cons r2 rest ih =>
    have h2 := hpre r2 (by simp)
    simp only [List.cons_append, runSchemaRules, h2]
    exact ih (fun r3 h3 => hpre r3 (by simp [h3]))

/-! ## Claim theorems -/

/-- C10 (confirmed): for every length rule, whatever the configured bounds,
`new_column_name(column)` is exactly `column ++ "_length"`, so any two
length rules on the same column share one derived-column name, while
`name()` distinguishes `min_length`, `max_length` and `length_range`. -/
theorem C10_length_column_name :
    ∀ (mn mx : Option Nat) (c : String) (m mM : Nat),
      (ColumnRule.lengthRule mn mx).newColumnName c = c ++ "_length" ∧
      (ColumnRule.lengthRule (some m) none).newColumnName c =
        (ColumnRule.lengthRule none (some mM)).newColumnName c ∧
      (ColumnRule.lengthRule (some m) none).name = "min_length" ∧
      (ColumnRule.lengthRule none (some mM)).name = "max_length" ∧
      (ColumnRule.lengthRule (some m) (some mM)).name = "length_range" := by
  intro mn mx c m mM
  exact ⟨rfl, rfl, rfl, rfl, rfl⟩

/-- C6 (confirmed): a length rule with neither bound is constructed and
registered without error (construction is a plain value), and `apply`
fails with a Configuration error on every dataset — at rule level and
through a `RuleSet` — never silently succeeding. -/
theorem C6_length_rule_no_bounds :
    ∀ (df : DataFrame) (c : String) (engine : Engine),
      (ColumnRule.lengthRule none none).apply df c =
        .error (.configuration "Length rule must have either a minimum or maximum length") ∧
      (RuleSet.new.withColumnRule c (ColumnRule.lengthRule none none)).columnRules =
        [(c, ColumnRule.lengthRule none none)] ∧
      (RuleSet.new.withColumnRule c (ColumnRule.lengthRule none none)).apply engine df =
        .error (.configuration "Length rule must have either a minimum or maximum length") := by
  intro df c engine
  exact ⟨rfl, rfl, rfl⟩

/-- C7 (confirmed): every two-argument calculation rule fails with a
Configuration error when both or neither of `x`/`y` are supplied, and with
exactly one supplied the aggregate is built with the rule's target column
as the other operand (`x` supplied: `agg(col, x)`;
`y` supplied: `agg(y, col)`). -/
theorem C7_two_arg_calculation :
    ∀ (k : TwoArgKind) (c : String) (x y : RExpr) (engine : Engine) (df : DataFrame),
      (TableRule.calculationRule (k.calc (some x) (some y))).apply engine df c =
        .error (.configuration k.configMessage) ∧
      (TableRule.calculationRule (k.calc none none)).apply engine df c =
        .error (.configuration k.configMessage) ∧
      buildCalcAgg (k.calc (some x) none) c = .ok (k.agg (.col c) x) ∧
      buildCalcAgg (k.calc none (some y)) c = .ok (k.agg y (.col c)) := by
  intro k c x y engine df
  cases k <;> exact ⟨rfl, rfl, rfl, rfl⟩

/-- C8 (confirmed): a min-only length rule derives true exactly when the
string length is at least the minimum (inclusive), a max-only length rule
exactly when the length is strictly below the maximum (exclusive); and the
derived column of `apply` is the pointwise `rowValue`. -/
theorem C8_length_bounds :
    ∀ (fields : List Field) (c : String) (row : List (Option Val)) (s : String) (m mM : Nat),
      lookupVal fields row c = some (.str s) →
      ((ColumnRule.lengthRule (some m) none).rowValue fields c row =
          some (.bool (decide (m ≤ s.length))) ∧
        (ColumnRule.lengthRule none (some mM)).rowValue fields c row =
          some (.bool (decide (s.length < mM)))) ∧
      (∀ (df df2 : DataFrame), df.aligned = true →
        (ColumnRule.lengthRule (some m) none).apply df c = .ok df2 →
        df2.columnValues (c ++ "_length") =
          some (df.rows.map ((ColumnRule.lengthRule (some m) none).rowValue df.fields c))) ∧
      (∀ (df df2 : DataFrame), df.aligned = true →
        (ColumnRule.lengthRule none (some mM)).apply df c = .ok df2 →
        df2.columnValues (c ++ "_length") =
          some (df.rows.map ((ColumnRule.lengthRule none (some mM)).rowValue df.fields c))) := by
  intro fields c row s m mM h
  refine ⟨⟨?_, ?_⟩, ?_, ?_⟩
  · simp only [ColumnRule.rowValue, h, charLength, sqlCmp, valGe, valLe]
    simp [Nat.cast_le]
  · simp only [ColumnRule.rowValue, h, charLength, sqlCmp, valLt]
    simp [Nat.cast_lt]
  · intro df df2 hal hap
    exact columnRule_apply_columnValues hal hap
  · intro df df2 hal hap
    exact columnRule_apply_columnValues hal hap

/-- C8 witness: on the string `abc`, the min-2 rule is true and the
max-3 rule is false. -/
theorem C8_length_bounds_witness :
    (ColumnRule.lengthRule (some 2) none).rowValue [⟨"t", DType.str, true⟩] "t"
        [some (.str "abc")] = some (.bool (decide (2 ≤ "abc".length))) ∧
    (ColumnRule.lengthRule none (some 3)).rowValue [⟨"t", DType.str, true⟩] "t"
        [some (.str "abc")] = some (.bool (decide ("abc".length < 3))) :=
  ⟨(C8_length_bounds [⟨"t", DType.str, true⟩] "t" [some (.str "abc")] "abc" 2 3
      (by decide)).1.1,
   (C8_length_bounds [⟨"t", DType.str, true⟩] "t" [some (.str "abc")] "abc" 2 3
      (by decide)).1.2⟩

/-- C9 (confirmed): whenever a table rule's `apply` succeeds, the derived
column holds one identical scalar on every row — the whole column is a
replication of `broadcastValue`, independent of each row's own data. -/
theorem C9_table_rule_broadcast :
    ∀ (engine : Engine) (t : TableRule) (df df2 : DataFrame) (c : String),
      df.aligned = true → t.apply engine df c = .ok df2 →
      df2.columnValues (t.newColumnName c) =
        some (List.replicate df.rows.length (broadcastValue engine t df c)) := by
  intro engine t df df2 c hal h
  cases t with
  | nullCountRule neg =>
    simp only [TableRule.apply] at h
    cases hidx : idxOfName df.fields c with
    | none => rw [hidx] at h; simp at h
    | some i =>
      rw [hidx] at h
      simp only [Except.ok.injEq] at h
      subst h
      unfold broadcastValue
      rw [hidx]
      exact columnValues_withColumn _ _ hal (by simp)
  | calculationRule ct =>
    simp only [TableRule.apply] at h
    cases hb : buildCalcAgg ct c with
    | error e => rw [hb] at h; simp at h
    | ok agg =>
      rw [hb] at h
      dsimp only at h
      cases he : engine agg df with
      | error e => rw [he] at h; simp at h
      | ok v =>
        rw [he] at h
        simp only [Except.ok.injEq] at h
        subst h
        unfold broadcastValue
        dsimp only
        rw [hb]
        dsimp only
        rw [he]
        exact columnValues_withColumn _ _ hal (by simp)

/-- C9 witness: the null-count rule on a two-row dataset with one null
broadcasts the count 1 to both rows. -/
theorem C9_table_rule_broadcast_witness :
    c9df2.columnValues ((TableRule.nullCountRule none).newColumnName "a") =
      some (List.replicate c9df.rows.length
        (broadcastValue dummyEngine (TableRule.nullCountRule none) c9df "a")) :=
  C9_table_rule_broadcast dummyEngine (TableRule.nullCountRule none) c9df c9df2 "a"
    (by decide) (by decide)

/-- C4 counterexample: with the built-in column-exists rule on a missing
column `x`, `apply` aborts with `ColumnNotFound "x"` — the rule's own
error, not a `Schema` error naming the rule. -/
theorem C4_counterexample :
    c4rs.apply dummyEngine c4df = .error (.columnNotFound "x") ∧
    isSchemaErrorResult (c4rs.apply dummyEngine c4df) = false := by
  exact ⟨rfl, rfl⟩

/-- C4 (corrected): schema rules run in registration order before any
table or column rule; the first failing rule aborts the whole call, with
its own error when `validate_schema` errors (the built-in rules' case) and
with a `Schema` error naming the rule only when `validate_schema` returns
`false`; either way no dataframe is produced. -/
theorem C4_amended :
    ∀ (engine : Engine) (rs : RuleSet) (df : DataFrame) (pre post : List SchemaRule)
      (r : SchemaRule),
      rs.schemaRules = pre ++ r :: post →
      (∀ r2 ∈ pre, r2.validate df.fields = .ok true) →
      (∀ e, r.validate df.fields = .error e → rs.apply engine df = .error e) ∧
      (r.validate df.fields = .ok false →
        rs.apply engine df = .error (.schema ("Schema rule " ++ r.name ++ " failed"))) := by
  intro engine rs df pre post r hsplit hpre
  have hrun := runSchemaRules_prefix pre post r df.fields hpre
  constructor
  · intro e he
    unfold RuleSet.apply
    rw [hsplit, hrun, he]
  · intro he
    unfold RuleSet.apply
    rw [hsplit, hrun, he]

/-- C4 witness: the amended claim evaluated on the concrete fixture. -/
theorem C4_amended_witness :
    c4rs.apply dummyEngine c4df = .error (.columnNotFound "x") :=
  (C4_amended dummyEngine c4rs c4df [] [] (columnExistsRule "x") rfl (by simp)).1
    (.columnNotFound "x") rfl

/-- C5 (confirmed): the `dfq_pass` column is the left-to-right Kleene-AND
fold of exactly the column-rule derived columns, each cast to boolean
(table-rule columns excluded); with zero column rules it is the literal
true on every row. -/
theorem C5_verdict_fold :
    ∀ (engine : Engine) (rs : RuleSet) (df dq df1 df2 : DataFrame),
      df.aligned = true →
      rs.apply engine df = .ok dq →
      applyTableRules engine rs.tableRules df = .ok df1 →
      applyColumnRules rs.columnRules df1 = .ok df2 →
      dq.columnValues "dfq_pass" =
        some (df2.rows.map (fun row =>
          match (rs.columnRules.map (fun cr => cr.2.newColumnName cr.1)).map
              (fun n => sqlCastBool (lookupVal df2.fields row n)) with
          | [] => some (Val.bool true)
          | b :: bs => (bs.foldl sqlAnd b).map Val.bool)) ∧
      (rs.columnRules = [] →
        dq.columnValues "dfq_pass" =
          some (List.replicate df.rows.length (some (Val.bool true)))) := by
  intro engine rs df dq df1 df2 hal hap ht hc
  obtain ⟨df1b, df2b, hs, htb, hcb, hdq⟩ := apply_ok_inv hap
  have e1 : df1 = df1b := by
    rw [ht] at htb
    exact Except.ok.inj htb
  subst e1
  have e2 : df2 = df2b := by
    rw [hc] at hcb
    exact Except.ok.inj hcb
  subst e2
  obtain ⟨ht1, ht2, _, _⟩ := applyTableRules_facts ht
  obtain ⟨hc1, hc2, _, _⟩ := applyColumnRules_facts hc
  have hal2 : df2.aligned = true := hc2 (ht2 hal)
  subst hdq
  have hmain :
      (addVerdict rs df2).columnValues "dfq_pass" =
        some (df2.rows.map (fun row => verdictValue df2.fields (checkColNames rs) row)) := by
    unfold addVerdict
    exact columnValues_withColumn _ _ hal2 (by simp)
  constructor
  · exact hmain
  · intro hnil
    rw [hmain]
    congr 1
    have : ∀ row, verdictValue df2.fields (checkColNames rs) row = some (Val.bool true) := by
      intro row
      unfold verdictValue checkColNames
      rw [hnil]
      rfl
    simp only [this]
    rw [map_const_replicate, hc1, ht1]

/-- C5 witness: zero column rules give a verdict column of literal trues. -/
theorem C5_verdict_fold_witness :
    c5edq.columnValues "dfq_pass" =
      some (List.replicate c5df.rows.length (some (Val.bool true))) :=
  (C5_verdict_fold dummyEngine c5ers c5df c5edq c5df c5df (by decide) (by decide)
      (by decide) (by decide)).2 rfl

/-- C3 (confirmed): the pass side of `partition` carries exactly the input
column set (every derived column stripped), while the fail side keeps the
full derived schema: every table-rule column, every column-rule column,
and the verdict column. -/
theorem C3_pass_fail_columns :
    ∀ (engine : Engine) (rs : RuleSet) (df p f : DataFrame),
      rs.partition engine df = .ok (p, f) →
      p.fields.map Field.name = df.fields.map Field.name ∧
      (∀ dq, rs.apply engine df = .ok dq → f.fields = dq.fields) ∧
      (∀ cr ∈ rs.tableRules, (cr.2 : TableRule).newColumnName cr.1 ∈ f.fields.map Field.name) ∧
      (∀ cr ∈ rs.columnRules,
        (cr.2 : ColumnRule).newColumnName cr.1 ∈ f.fields.map Field.name) ∧
      "dfq_pass" ∈ f.fields.map Field.name := by
  intro engine rs df p f hp
  obtain ⟨dq, hap, hsel, hf⟩ := partition_ok_inv hp
  obtain ⟨df1, df2, hs, ht, hc, hdq⟩ := apply_ok_inv hap
  obtain ⟨_, _, htn, htd⟩ := applyTableRules_facts ht
  obtain ⟨_, _, hcn, hcd⟩ := applyColumnRules_facts hc
  have hff : f.fields = dq.fields := by rw [hf]; rfl
  have hdqn : ∀ n ∈ df2.fields.map Field.name, n ∈ dq.fields.map Field.name := by
    rw [hdq]
    unfold addVerdict
    exact fun n hn => mem_names_withColumn _ _ hn
  have hdqp : ("dfq_pass" : String) ∈ dq.fields.map Field.name := by
    rw [hdq]
    unfold addVerdict
    exact self_mem_names_withColumn df2 ⟨"dfq_pass", DType.bool, true⟩ _
  obtain ⟨hsn, _⟩ := selectColumns_ok_facts hsel
  refine ⟨hsn, ?_, ?_, ?_, ?_⟩
  · intro dq2 hap2
    have e : dq = dq2 := Except.ok.inj (hap.symm.trans hap2)
    rw [hff, e]
  · intro cr hcr
    rw [hff]
    exact hdqn _ (hcn _ (htd cr hcr))
  · intro cr hcr
    rw [hff]
    exact hdqn _ (hcd cr hcr)
  · rw [hff]
    exact hdqp

/-- C3 witness: closed consequences of the claim on the concrete fixture. -/
theorem C3_pass_fail_columns_witness :
    c3p.fields.map Field.name = c3df.fields.map Field.name ∧
    "dfq_pass" ∈ c3f.fields.map Field.name :=
  ⟨(C3_pass_fail_columns dummyEngine c3rs c3df c3p c3f (by decide)).1,
   (C3_pass_fail_columns dummyEngine c3rs c3df c3p c3f (by decide)).2.2.2.2⟩

/-- C2 counterexample: on a one-row dataset whose single range-rule input
is NULL, the verdict is NULL and the row is dropped from both sides, so
pass + fail = 0 while the input has 1 row. -/
theorem C2_counterexample :
    c2rs.partition dummyEngine c2df = .ok (c2p, c2f) ∧
    c2df.rows.length = 1 ∧ c2p.rows.length + c2f.rows.length = 0 := by
  exact ⟨by decide, rfl, rfl⟩

/-- C2 (corrected): pass-count plus fail-count plus the number of rows
whose verdict is NULL equals the input row count; the claimed two-way sum
holds exactly when no row has a NULL verdict. -/
theorem C2_amended :
    ∀ (engine : Engine) (rs : RuleSet) (df dq p f : DataFrame),
      rs.apply engine df = .ok dq →
      rs.partition engine df = .ok (p, f) →
      p.rows.length + f.rows.length +
        dq.rows.countP (fun row => passPred dq.fields row == none) = df.rows.length := by
  intro engine rs df dq p f hap hp
  obtain ⟨dq2, hap2, hsel, hf⟩ := partition_ok_inv hp
  have e : dq2 = dq := Except.ok.inj (hap2.symm.trans hap)
  subst e
  obtain ⟨_, hplen⟩ := selectColumns_ok_facts hsel
  have hp1 : p.rows.length = dq2.rows.countP (fun row => passPred dq2.fields row == some true) := by
    rw [hplen]
    simp [DataFrame.filterRows, List.countP_eq_length_filter]
  have hp2 : f.rows.length =
      dq2.rows.countP (fun row => passPred dq2.fields row == some false) := by
    rw [hf]
    simp [DataFrame.filterRows, List.countP_eq_length_filter, sqlNot_eq_some_true]
  rw [hp1, hp2, countP_optBool]
  exact (apply_rows hap).1

/-- C2 witness: the amended equation on a one-row non-null fixture
(1 pass + 0 fail + 0 null = 1). -/
theorem C2_amended_witness :
    c2wp.rows.length + c2wf.rows.length +
      c2wdq.rows.countP (fun row => passPred c2wdq.fields row == none) =
      c2wdf.rows.length :=
  C2_amended dummyEngine c2wrs c2wdf c2wdq c2wp c2wf (by decide) (by decide)

/-- C1 counterexample: a one-row dataset whose only rule is a range rule
over a NULL value.  The derived entry is NULL and the row is excluded from
the pass partition, but it does not appear on the failing side either —
the fail side is empty although the input has one row. -/
theorem C1_counterexample :
    c1rs.apply dummyEngine c1df = .ok c1dq ∧
    c1dq.columnValues "score_in_range" = some [none] ∧
    c1rs.partition dummyEngine c1df = .ok (c1p, c1f) ∧
    c1df.rows.length = 1 ∧
    c1f.rows = [] := by
  exact ⟨by decide, by decide, by decide, rfl, rfl⟩

/-- C1 (corrected): a NULL source value in a range/comparison/pattern rule
yields a NULL derived entry; a row with a NULL check column can never have
a true verdict, so it is excluded from the pass partition; but it appears
on the failing side only when the verdict is false — a row whose verdict
is NULL is excluded from both partitions. -/
theorem C1_amended :
    (∀ (fields : List Field) (c : String) (row : List (Option Val)) (mn mx : ℚ)
        (neg : Option Bool),
        lookupVal fields row c = none →
        (ColumnRule.rangeRule mn mx neg).rowValue fields c row = none) ∧
    (∀ (fields : List Field) (c : String) (row : List (Option Val)) (pat : String)
        (neg cs : Option Bool),
        lookupVal fields row c = none →
        (ColumnRule.patternRule pat neg cs).rowValue fields c row = none) ∧
    (∀ (fields : List Field) (c : String) (row : List (Option Val)) (v : RExpr)
        (neg eq : Bool) (ct : ComparisonType),
        lookupVal fields row c = none →
        (ColumnRule.comparisonRule v neg eq ct).rowValue fields c row = none) ∧
    (∀ (fields : List Field) (cols : List String) (row : List (Option Val)),
        (∃ n, n ∈ cols ∧ sqlCastBool (lookupVal fields row n) = none) →
        verdictValue fields cols row ≠ some (Val.bool true)) ∧
    (∀ (engine : Engine) (rs : RuleSet) (df dq p f : DataFrame),
        rs.apply engine df = .ok dq →
        rs.partition engine df = .ok (p, f) →
        ∀ row ∈ dq.rows, lookupVal dq.fields row "dfq_pass" = none →
          row ∉ (dq.filterRows (fun r2 => passPred dq.fields r2 == some true)).rows ∧
          row ∉ f.rows) := by
  refine ⟨?_, ?_, ?_, ?_, ?_⟩
  · intro fields c row mn mx neg h
    simp only [ColumnRule.rowValue, h, sqlBetween, sqlCmp, sqlAnd]
    cases neg.getD false <;> simp [sqlNot]
  · intro fields c row pat neg cs h
    simp only [ColumnRule.rowValue, h, sqlLike]
    rfl
  · intro fields c row v neg eq ct h
    cases hW : evalRExpr fields v row <;>
      cases ct <;> cases eq <;>
        simp only [ColumnRule.rowValue, h, hW, sqlCmp] <;>
          cases neg <;> simp [sqlNot]
  · rintro fields cols row ⟨n, hn, hnone⟩ hcontra
    unfold verdictValue at hcontra
    cases hm : cols.map (fun n2 => sqlCastBool (lookupVal fields row n2)) with
    | nil =>
      have : cols = [] := List.map_eq_nil_iff.mp hm
      subst this
      exact absurd hn (List.not_mem_nil n)
    | cons b bs =>
      rw [hm] at hcontra
      obtain ⟨ob, hob, hbool⟩ := Option.map_eq_some'.mp hcontra
      have hobt : ob = true := Val.bool.inj hbool
      subst hobt
      obtain ⟨hb, hall⟩ := foldl_sqlAnd_eq_true hob
      have hmem : sqlCastBool (lookupVal fields row n) ∈
          cols.map (fun n2 => sqlCastBool (lookupVal fields row n2)) :=
        List.mem_map_of_mem _ hn
      rw [hm] at hmem
      rcases List.mem_cons.mp hmem with he | hm2
      · rw [hnone] at he
        rw [← he] at hb
        simp at hb
      · have := hall _ hm2
        rw [hnone] at this
        simp at this
  · intro engine rs df dq p f hap hp row hrow hnull
    obtain ⟨dq2, hap2, hsel, hf⟩ := partition_ok_inv hp
    have e : dq2 = dq := Except.ok.inj (hap2.symm.trans hap)
    subst e
    have hpass : passPred dq2.fields row = none := by
      simp [passPred, hnull, sqlCmp]
    constructor
    · intro hmem
      simp only [DataFrame.filterRows] at hmem
      have := (List.mem_filter.mp hmem).2
      rw [hpass] at this
      simp at this
    · intro hmem
      rw [hf] at hmem
      simp only [DataFrame.filterRows] at hmem
      have := (List.mem_filter.mp hmem).2
      rw [hpass] at this
      simp [sqlNot] at this

/-- C1 witness: the amended claim on the concrete fixture — NULL derived
entry, and the NULL-verdict row is in neither partition. -/
theorem C1_amended_witness :
    (ColumnRule.rangeRule 80 100 none).rowValue c1dq.fields "score" [none, none, none] = none ∧
    ([none, none, none] ∉
        (c1dq.filterRows (fun r2 => passPred c1dq.fields r2 == some true)).rows ∧
      [none, none, none] ∉ c1f.rows) := by
  refine ⟨C1_amended.1 c1dq.fields "score" [none, none, none] 80 100 none (by decide), ?_⟩
  exact C1_amended.2.2.2.2 dummyEngine c1rs c1df c1dq c1p c1f (by decide) (by decide)
    [none, none, none] (by decide) (by decide)

end DFQ
